import Mathlib

/-!
Shallow embedding of the music-server HTTP query layer (`src/app.py`).

The service is a read-only FastAPI app over a MongoDB collection of track
documents.  We embed:

* documents as association lists of string keys to BSON-ish `Value`s,
  with Python `dict.get` semantics (`get`, `getD`);
* the store as a `List Doc` (the collection in natural order);
* `serialize_track`, `build_search_query` and the route handlers as pure
  Lean functions translated line by line from `src/app.py`;
* the external document-store operations (`find`, `find_one`, `distinct`,
  cursor `limit`) — which are MongoDB, outside this repository — by their
  documented contracts, as the spec assumes ("the document-store engine …
  assumed to supply case-insensitive substring filtering and a
  `distinct`-style field projection").

Python `datetime` values are embedded as a `DateTime` record of calendar
fields; `datetime.isoformat` (standard library, outside the repository) is
embedded by its documented output format `YYYY-MM-DDTHH:MM:SS[.ffffff]`.
-/

/-- A Python `datetime.datetime` value, as calendar fields. -/
structure DateTime where
  year : Nat
  month : Nat
  day : Nat
  hour : Nat
  minute : Nat
  second : Nat
  microsecond : Nat
deriving DecidableEq

/-- The invariants Python's `datetime` constructor enforces on its fields
(`MINYEAR = 1`, `MAXYEAR = 9999`, and the usual calendar ranges). -/
def DateTime.Valid (t : DateTime) : Prop :=
  1 ≤ t.year ∧ t.year ≤ 9999 ∧ 1 ≤ t.month ∧ t.month ≤ 12 ∧
    1 ≤ t.day ∧ t.day ≤ 31 ∧ t.hour ≤ 23 ∧ t.minute ≤ 59 ∧
      t.second ≤ 59 ∧ t.microsecond ≤ 999999

instance (t : DateTime) : Decidable t.Valid := by
  unfold DateTime.Valid; infer_instance

/-- A BSON-ish value stored in a track document.  `vmap` models the
"mapping of string to arbitrary value" fields (`audio_features`, `sources`);
the claims only inspect such mappings for null-ness/emptiness, so entries
are kept as string pairs.  `time` models a Python `datetime`. -/
inductive Value where
  | null : Value
  | str (s : String) : Value
  | strList (l : List String) : Value
  | vmap (m : List (String × String)) : Value
  | time (t : DateTime) : Value
deriving DecidableEq

/-- A stored document: an association list from field names to values.
A key present with `Value.null` models a Python key holding `None`;
an absent key models a missing field. -/
abbrev Doc := List (String × Value)

/-- Python `doc.get(k)`: the value at `k`, or `None` when the key is absent. -/
def docGet (d : Doc) (k : String) : Value := (d.lookup k).getD Value.null

/-- Python `doc.get(k, default)`: the value at `k`, or `default` only when
the key is absent — a key present with `None` yields `None`, not the
default. -/
def docGetD (d : Doc) (k : String) (v : Value) : Value := (d.lookup k).getD v

/-- Python `str.lower()` (ASCII case folding, which is all the repository's
data needs): lower-case every character. -/
def strLower (s : String) : String := ⟨s.data.map Char.toLower⟩

/-- `needle` occurs as a contiguous substring of `hay` (unanchored). -/
def containsSub (needle hay : List Char) : Bool :=
  match hay with
  | [] => needle.isEmpty
  | _ :: t => needle.isPrefixOf hay || containsSub needle t

/-- The filter document produced by `build_search_query` (lines 61-77 of
`src/app.py`): an optional `$or` of three `$regex` clauses on the shadow
fields plus optional `$regex` clauses on `artist_lower` / `genres_lower`.
Each field holds the (lower-cased) pattern when the corresponding clause
is present in the Python dict. -/
structure MongoQuery where
  orRegex : Option String
  artistRegex : Option String
  genresRegex : Option String
deriving DecidableEq

/-- Python truthiness of an optional string argument: `if query:` keeps
only a value that is neither `None` nor the empty string. -/
def truthyStr : Option String → Option String
  | some s => if s = "" then none else some s
  | none => none

/-- `build_search_query` (src/app.py lines 61-77): each truthy input
contributes its lower-cased pattern; `query` feeds the `$or` clause over
`title_lower`/`artist_lower`/`album_lower`, `artist` the `artist_lower`
clause, `genre` the `genres_lower` clause. -/
def build_search_query (query artist genre : Option String) : MongoQuery :=
  { orRegex := (truthyStr query).map strLower
    artistRegex := (truthyStr artist).map strLower
    genresRegex := (truthyStr genre).map strLower }

/-- Modelled from the spec: the document-store engine is outside this
repository; per its documented contract a `$regex` clause with a literal
pattern matches a string field iff the pattern occurs in it as an
unanchored substring, matches an array field iff it so matches some
element, and does not match a missing or other-typed field. -/
def fieldMatches (d : Doc) (field pat : String) : Bool :=
  match d.lookup field with
  | some (Value.str s) => containsSub pat.data s.data
  | some (Value.strList l) => l.any (fun s => containsSub pat.data s.data)
  | _ => false

/-- Modelled from the spec: the store evaluates a filter document by
conjoining its top-level clauses; the `$or` clause holds iff at least one
of its three shadow-field regex clauses holds; an absent clause constrains
nothing (an empty filter matches every document). -/
def matchesQuery (q : MongoQuery) (d : Doc) : Bool :=
  (match q.orRegex with
   | none => true
   | some pat =>
       fieldMatches d "title_lower" pat || fieldMatches d "artist_lower" pat ||
         fieldMatches d "album_lower" pat) &&
  (match q.artistRegex with
   | none => true
   | some pat => fieldMatches d "artist_lower" pat) &&
  (match q.genresRegex with
   | none => true
   | some pat => fieldMatches d "genres_lower" pat)

/-- The decimal digits of `n % 10 ^ k`, zero-padded on the left to exactly
`k` characters (the `%04d`/`%02d`/`%06d` fields of `datetime.isoformat`). -/
def padDigits : Nat → Nat → List Char
  | 0, _ => []
  | k + 1, n => padDigits k (n / 10) ++ [Nat.digitChar (n % 10)]

/-- Modelled from the spec: `datetime.isoformat` is the Python standard
library (outside this repository); per its documented contract it renders
`YYYY-MM-DDTHH:MM:SS`, appending `.ffffff` exactly when the microsecond
field is non-zero. -/
def DateTime.isoformat (t : DateTime) : String :=
  ⟨padDigits 4 t.year⟩ ++ "-" ++ ⟨padDigits 2 t.month⟩ ++ "-" ++
    ⟨padDigits 2 t.day⟩ ++ "T" ++ ⟨padDigits 2 t.hour⟩ ++ ":" ++
      ⟨padDigits 2 t.minute⟩ ++ ":" ++ ⟨padDigits 2 t.second⟩ ++
        (if t.microsecond = 0 then "" else "." ++ ⟨padDigits 6 t.microsecond⟩)

/-- Read exactly `k` decimal digits from the front of `cs`, folding them
onto `acc`; fails if a non-digit or the end of input is hit first. -/
def readFixedAux (acc : Nat) : Nat → List Char → Option (Nat × List Char)
  | 0, cs => some (acc, cs)
  | _ + 1, [] => none
  | k + 1, c :: cs =>
      if c.isDigit then readFixedAux (10 * acc + (c.toNat - 48)) k cs else none

/-- Read exactly `k` decimal digits as a number, returning the rest. -/
def readFixed (k : Nat) (cs : List Char) : Option (Nat × List Char) :=
  readFixedAux 0 k cs

/-- Consume an expected literal character. -/
def expectChar (c : Char) : List Char → Option (List Char)
  | [] => none
  | x :: xs => if x = c then some xs else none

/-- An ISO-8601 parser for the exact shape `datetime.isoformat` emits
(`YYYY-MM-DDTHH:MM:SS` with an optional `.ffffff` suffix); used to state
the round-trip claim C7. -/
def isoParse (s : String) : Option DateTime := do
  let (y, r1) ← readFixed 4 s.data
  let r2 ← expectChar '-' r1
  let (mo, r3) ← readFixed 2 r2
  let r4 ← expectChar '-' r3
  let (d, r5) ← readFixed 2 r4
  let r6 ← expectChar 'T' r5
  let (h, r7) ← readFixed 2 r6
  let r8 ← expectChar ':' r7
  let (mi, r9) ← readFixed 2 r8
  let r10 ← expectChar ':' r9
  let (se, r11) ← readFixed 2 r10
  match r11 with
  | [] => some ⟨y, mo, d, h, mi, se, 0⟩
  | '.' :: r12 => do
      let (us, r13) ← readFixed 6 r12
      if r13 = [] then some ⟨y, mo, d, h, mi, se, us⟩ else none
  | _ => none

/-- `serialize_track` (src/app.py lines 41-58): a falsy document (Python
`None` or the empty dict) maps to `None`; otherwise the output is the
dict literal of exactly the ten public fields, where `genres` defaults to
`[]` and `audio_features`/`sources` to `{}` only when absent
(`dict.get` with a default), and `date_added` is ISO-formatted when it is
a `datetime` and `null` otherwise. -/
def serialize_track (doc : Option Doc) : Option Doc :=
  match doc with
  | none => none
  | some d =>
      if d.isEmpty then none
      else
        some [("music_id", docGet d "music_id"),
              ("title", docGet d "title"),
              ("artist", docGet d "artist"),
              ("album", docGet d "album"),
              ("genres", docGetD d "genres" (Value.strList [])),
              ("release_date", docGet d "release_date"),
              ("audio_features", docGetD d "audio_features" (Value.vmap [])),
              ("sources", docGetD d "sources" (Value.vmap [])),
              ("date_added",
                match docGet d "date_added" with
                | Value.time t => Value.str t.isoformat
                | _ => Value.null),
              ("notes", docGet d "notes")]

/-- The value of field `k` in the serialized output of `d`, when defined. -/
def outField (d : Doc) (k : String) : Option Value :=
  (serialize_track (some d)).bind (fun out => out.lookup k)

/-- The ten public field names of the dict literal in `serialize_track`,
in source order. -/
def publicFields : List String :=
  ["music_id", "title", "artist", "album", "genres", "release_date",
   "audio_features", "sources", "date_added", "notes"]

/-- Code-point lexicographic comparison of character lists — the order
Python's `sorted` uses on strings. -/
def lexLE : List Char → List Char → Bool
  | [], _ => true
  | _ :: _, [] => false
  | a :: as, b :: bs =>
      if a.toNat < b.toNat then true
      else if b.toNat < a.toNat then false
      else lexLE as bs

/-- Python string comparison `a <= b` (code-point lexicographic). -/
def strLE (a b : String) : Bool := lexLE a.data b.data

/-- Python `sorted` on a collection of strings: ascending code-point
lexicographic order.  On the duplicate-free inputs the routes feed it
(Python sets), every comparison sort returns the same list, so insertion
sort is a faithful model. -/
def sortStrings (l : List String) : List String :=
  List.insertionSort (fun a b => strLE a b = true) l

/-- Modelled from the spec: the store's `distinct(field)` projection
(MongoDB, outside this repository) returns each value the field holds in
some document, without duplicates; documents lacking the field contribute
nothing. -/
def distinctValues (store : List Doc) (field : String) : List Value :=
  (store.filterMap (fun d => d.lookup field)).dedup

/-- The `for g in genres` loop body of `list_genres` (src/app.py lines
140-144): a list value is flattened (`flat.update(g)`), a scalar string is
added directly (`flat.add(g)`).  A non-string scalar would make the
route's final `sorted` raise in Python; the C2 theorem therefore carries
the scalar-string-or-list hypothesis `goodGenres`. -/
def flattenGenre : Value → List String
  | Value.strList l => l
  | Value.str s => [s]
  | _ => []

/-- `g` is one of the genre values document field `v` holds: the scalar
itself, or a member of the list. -/
def genreHas (g : String) : Value → Prop
  | Value.str s => g = s
  | Value.strList l => g ∈ l
  | _ => False

/-- The genres field of `d`, when present, holds a scalar string or a
list of strings (the two storage shapes claim C2 quantifies over). -/
def goodGenres (d : Doc) : Bool :=
  match d.lookup "genres" with
  | some (Value.str _) => true
  | some (Value.strList _) => true
  | some _ => false
  | none => true

/-- `list_genres` (src/app.py lines 136-145): distinct `genres` values,
lists flattened and scalars added into a set, then sorted. -/
def list_genres (store : List Doc) : List String :=
  sortStrings (((distinctValues store "genres").flatMap flattenGenre).dedup)

/-- The artist field of `d`, when present, holds a string or null
(per the spec's data model, artist is a string; a null is dropped by the
route's truthiness filter either way). -/
def goodArtist (d : Doc) : Bool :=
  match d.lookup "artist" with
  | some (Value.str _) => true
  | some Value.null => true
  | some _ => false
  | none => true

/-- `list_artists` (src/app.py lines 130-133): distinct `artist` values,
kept when truthy (`if a` — for strings, exactly the non-empty ones; a
null is falsy and dropped), then sorted.  Non-string, non-null artist
values would make Python's `sorted` raise; the C9 theorem carries the
`goodArtist` hypothesis. -/
def list_artists (store : List Doc) : List String :=
  sortStrings ((distinctValues store "artist").filterMap (fun v =>
    match v with
    | Value.str s => if s = "" then none else some s
    | _ => none))

/-- Modelled from the spec: the store's `find_one({"music_id": id})`
(MongoDB, outside this repository) returns the first document, in
natural order, whose `music_id` field equals the given string, or `None`
when there is no match. -/
def find_one (store : List Doc) (mid : String) : Option Doc :=
  store.find? (fun d => d.lookup "music_id" == some (Value.str mid))

/-- `get_track_by_music_id` (src/app.py lines 114-119): look the id up;
a falsy result (`None`, or an empty document) raises
`HTTPException(404, "Track not found")`; otherwise the document is
shaped and returned. -/
def get_track_by_music_id (store : List Doc) (mid : String) :
    Except (Nat × String) (Option Doc) :=
  match find_one store mid with
  | none => Except.error (404, "Track not found")
  | some d =>
      if d.isEmpty then Except.error (404, "Track not found")
      else Except.ok (serialize_track (some d))

/-- Models FastAPI's handling of the declared parameter
`limit: int = Query(50, le=500)` (src/app.py line 107): an absent
parameter takes the default 50; a supplied value is accepted unchanged
iff it is at most 500, and otherwise rejected with a 422 validation
error before the handler body (and hence any repository call) runs.
No lower bound is declared. -/
def validate_limit : Option Int → Except Nat Int
  | none => Except.ok 50
  | some v => if v ≤ 500 then Except.ok v else Except.error 422

/-- Modelled from the spec: the store cursor's `.limit(n)` (MongoDB,
outside this repository) caps the result at `n` documents for positive
`n`, is documented to be equivalent to no limit at all for `n = 0`, and
caps at `|n|` for negative `n`. -/
def applyLimit (limit : Int) (l : List Doc) : List Doc :=
  if limit = 0 then l else l.take limit.natAbs

/-- The body of `list_tracks` (src/app.py lines 102-111) after parameter
validation: build the filter, run it over the collection, cap the cursor,
shape each document. -/
def list_tracks (store : List Doc) (query artist genre : Option String)
    (limit : Int) : List (Option Doc) :=
  (applyLimit limit
      (store.filter (matchesQuery (build_search_query query artist genre)))).map
    (fun d => serialize_track (some d))

/-- The `GET /tracks` endpoint: parameter validation, then the handler. -/
def list_tracks_endpoint (store : List Doc) (query artist genre : Option String)
    (limit : Option Int) : Except Nat (List (Option Doc)) :=
  match validate_limit limit with
  | Except.error e => Except.error e
  | Except.ok l => Except.ok (list_tracks store query artist genre l)

/-- C1 -- For every combination of the three optional inputs,
`build_search_query` returns a predicate that is the logical AND of the
present filters: a present (non-empty, per Python truthiness) `query`
contributes an OR of three substring clauses of the lower-cased query
against the lower-cased title/artist/album shadow fields, a present
`artist` a substring clause on the lower-cased artist shadow, a present
`genre` a substring clause on the lower-cased genres shadow; with no
input present the predicate matches every track. -/
theorem C1_search_query_is_and_of_filters
    (query artist genre : Option String) (d : Doc) :
    matchesQuery (build_search_query query artist genre) d =
      ((match truthyStr query with
        | none => true
        | some s =>
            fieldMatches d "title_lower" (strLower s) ||
              fieldMatches d "artist_lower" (strLower s) ||
                fieldMatches d "album_lower" (strLower s)) &&
       (match truthyStr artist with
        | none => true
        | some s => fieldMatches d "artist_lower" (strLower s)) &&
       (match truthyStr genre with
        | none => true
        | some s => fieldMatches d "genres_lower" (strLower s))) := by
  unfold matchesQuery build_search_query
  cases truthyStr query <;> cases truthyStr artist <;> cases truthyStr genre <;> rfl

lemma digitChar_isDigit (d : Nat) (h : d < 10) : (Nat.digitChar d).isDigit = true := by
  interval_cases d <;> decide

lemma digitChar_val (d : Nat) (h : d < 10) : (Nat.digitChar d).toNat - 48 = d := by
  interval_cases d <;> decide

lemma length_padDigits (k n : Nat) : (padDigits k n).length = k := by
  induction k generalizing n with
  | zero => rfl
  | succ k ih => simp [padDigits, ih]

lemma mem_padDigits_isDigit (k n : Nat) : ∀ c ∈ padDigits k n, c.isDigit = true := by
  induction k generalizing n with
  | zero => simp [padDigits]
  | succ k ih =>
      intro c hc
      simp only [padDigits, List.mem_append, List.mem_singleton] at hc
      rcases hc with hc | rfl
      · exact ih (n / 10) c hc
      · exact digitChar_isDigit _ (Nat.mod_lt _ (by norm_num))

lemma readFixedAux_append (xs : List Char) (hxs : ∀ c ∈ xs, c.isDigit = true)
    (acc j : Nat) (rest : List Char) :
    readFixedAux acc (xs.length + j) (xs ++ rest) =
      readFixedAux (xs.foldl (fun a c => 10 * a + (c.toNat - 48)) acc) j rest := by
  induction xs generalizing acc with
  | nil => simp
  | cons c cs ih =>
      have hc : c.isDigit = true := hxs c (by simp)
      have hlen : (c :: cs).length + j = (cs.length + j) + 1 := by simp; omega
      rw [hlen]
      show readFixedAux acc ((cs.length + j) + 1) (c :: (cs ++ rest)) = _
      rw [readFixedAux, if_pos hc, ih (fun a ha => hxs a (by simp [ha]))]
      simp

lemma foldl_padDigits (k n acc : Nat) :
    (padDigits k n).foldl (fun a c => 10 * a + (c.toNat - 48)) acc =
      acc * 10 ^ k + n % 10 ^ k := by
  induction k generalizing n acc with
  | zero => simp [padDigits, Nat.mod_one]
  | succ k ih =>
      rw [padDigits, List.foldl_append, ih]
      simp only [List.foldl_cons, List.foldl_nil]
      rw [digitChar_val _ (Nat.mod_lt _ (by norm_num))]
      have hm : n % 10 ^ (k + 1) = n % 10 + 10 * (n / 10 % 10 ^ k) := by
        rw [pow_succ, mul_comm (10 ^ k) 10, Nat.mod_mul]
      rw [hm, pow_succ]
      ring

lemma readFixed_padDigits (k n : Nat) (rest : List Char) (h : n < 10 ^ k) :
    readFixed k (padDigits k n ++ rest) = some (n, rest) := by
  have hstep := readFixedAux_append (padDigits k n) (mem_padDigits_isDigit k n) 0 0 rest
  rw [length_padDigits, Nat.add_zero] at hstep
  rw [readFixed, hstep, foldl_padDigits]
  simp [readFixedAux, Nat.mod_eq_of_lt h]

lemma expectChar_cons (c : Char) (xs : List Char) : expectChar c (c :: xs) = some xs := by
  simp [expectChar]

lemma isoformat_data (t : DateTime) :
    (DateTime.isoformat t).data =
      padDigits 4 t.year ++ '-' :: (padDigits 2 t.month ++ '-' ::
        (padDigits 2 t.day ++ 'T' :: (padDigits 2 t.hour ++ ':' ::
          (padDigits 2 t.minute ++ ':' :: (padDigits 2 t.second ++
            (if t.microsecond = 0 then []
             else '.' :: padDigits 6 t.microsecond)))))) := by
  simp only [DateTime.isoformat, String.data_append]
  by_cases hus : t.microsecond = 0 <;> simp [hus]

/-- `datetime.isoformat` output parses back to the original value: the
formatting is injective on valid datetimes. -/
theorem isoformat_roundtrip (t : DateTime) (h : t.Valid) :
    isoParse t.isoformat = some t := by
  obtain ⟨y, mo, d, hh, mi, se, us⟩ := t
  obtain ⟨h1, h2, h3, h4, h5, h6, h7, h8, h9, h10⟩ := h
  dsimp only at h1 h2 h3 h4 h5 h6 h7 h8 h9 h10
  simp only [isoParse, isoformat_data]
  rw [readFixed_padDigits _ _ _ (by omega)]
  simp only [Option.bind_eq_bind, Option.some_bind, expectChar_cons]
  rw [readFixed_padDigits _ _ _ (by omega)]
  simp only [Option.some_bind, expectChar_cons]
  rw [readFixed_padDigits _ _ _ (by omega)]
  simp only [Option.some_bind, expectChar_cons]
  rw [readFixed_padDigits _ _ _ (by omega)]
  simp only [Option.some_bind, expectChar_cons]
  rw [readFixed_padDigits _ _ _ (by omega)]
  simp only [Option.some_bind, expectChar_cons]
  rw [readFixed_padDigits _ _ _ (by omega)]
  simp only [Option.some_bind]
  by_cases hus : us = 0
  · subst hus; simp
  · rw [if_neg hus]
    have hr : readFixed 6 (padDigits 6 us) = some (us, []) := by
      simpa using readFixed_padDigits 6 us [] (by omega)
    simp [hr]

lemma lexLE_total : ∀ as bs : List Char, lexLE as bs = true ∨ lexLE bs as = true := by
  intro as
  induction as with
  | nil => intro bs; left; rfl
  | cons a as ih =>
      intro bs
      cases bs with
      | nil => right; rfl
      | cons b bs =>
          by_cases hab : a.toNat < b.toNat
          · left; simp [lexLE, hab]
          · by_cases hba : b.toNat < a.toNat
            · right; simp [lexLE, hba]
            · rcases ih bs with h | h
              · left; simp [lexLE, hab, hba, h]
              · right; simp [lexLE, hab, hba, h]

lemma lexLE_trans : ∀ as bs cs : List Char,
    lexLE as bs = true → lexLE bs cs = true → lexLE as cs = true := by
  intro as
  induction as with
  | nil => intro bs cs _ _; rfl
  | cons a as ih =>
      intro bs cs h1 h2
      cases bs with
      | nil => simp [lexLE] at h1
      | cons b bs =>
          cases cs with
          | nil => simp [lexLE] at h2
          | cons c cs =>
              simp only [lexLE] at h1 h2 ⊢
              split_ifs at h1 h2 ⊢ <;>
                first
                  | rfl
                  | exact ih bs cs h1 h2
                  | omega

/-- `sortStrings` returns an ascending (code-point lexicographic)
permutation of its input. -/
lemma sortStrings_sorted (l : List String) :
    List.Sorted (fun a b => strLE a b = true) (sortStrings l) := by
  haveI : IsTotal String (fun a b => strLE a b = true) :=
    ⟨fun a b => lexLE_total a.data b.data⟩
  haveI : IsTrans String (fun a b => strLE a b = true) :=
    ⟨fun a b c => lexLE_trans a.data b.data c.data⟩
  exact List.sorted_insertionSort _ l

lemma sortStrings_perm (l : List String) : (sortStrings l).Perm l :=
  List.perm_insertionSort _ l

lemma mem_distinctValues (store : List Doc) (field : String) (v : Value) :
    v ∈ distinctValues store field ↔ ∃ d ∈ store, d.lookup field = some v := by
  simp [distinctValues, List.mem_dedup, List.mem_filterMap]

lemma mem_flattenGenre (g : String) (v : Value) :
    g ∈ flattenGenre v ↔ genreHas g v := by
  cases v <;> simp [flattenGenre, genreHas, eq_comm]

lemma find?_of_unique {α : Type} {p : α → Bool} {l : List α} {a : α}
    (ha : a ∈ l) (hpa : p a = true)
    (huniq : ∀ b ∈ l, p b = true → b = a) : l.find? p = some a := by
  induction l with
  | nil => cases ha
  | cons x xs ih =>
      by_cases hx : p x = true
      · have hxa : x = a := huniq x (by simp) hx
        subst hxa
        simp [List.find?_cons, hx]
      · have hxf : p x = false := by
          cases hpx : p x
          · rfl
          · exact absurd hpx hx
        have hax : a ≠ x := fun h => hx (h ▸ hpa)
        have ha' : a ∈ xs := by
          rcases List.mem_cons.mp ha with h | h
          · exact absurd h hax
          · exact h
        rw [List.find?_cons, hxf]
        exact ih ha' (fun b hb hpb => huniq b (by simp [hb]) hpb)

lemma artistKeep_eq_some {v : Value} {s : String}
    (h : (match v with
          | Value.str s => if s = "" then none else some s
          | _ => none) = some s) : v = Value.str s ∧ s ≠ "" := by
  cases v <;> simp at h
  rename_i s0
  rcases h with ⟨hs0, hvs⟩
  subst hvs
  exact ⟨rfl, hs0⟩

/-- C2 -- On any store whose genres fields hold a scalar string or a list
of strings, `GET /genres` returns each genre value exactly once (no
duplicates), sorted lexicographically ascending, where a scalar genres
value is included directly and a list value is flattened: `g` appears in
the output iff some stored document's genres field has `g` as its scalar
value or as a list element. -/
theorem C2_genres_flatten_dedup_sorted (store : List Doc)
    (_hscope : store.all goodGenres = true) :
    List.Sorted (fun a b => strLE a b = true) (list_genres store) ∧
      (list_genres store).Nodup ∧
        ∀ g : String, g ∈ list_genres store ↔
          ∃ d ∈ store, ∃ v, d.lookup "genres" = some v ∧ genreHas g v := by
  refine ⟨sortStrings_sorted _, ?_, ?_⟩
  · exact ((sortStrings_perm _).nodup_iff).mpr (List.nodup_dedup _)
  · intro g
    rw [list_genres, (sortStrings_perm _).mem_iff, List.mem_dedup, List.mem_flatMap]
    constructor
    · rintro ⟨v, hv, hg⟩
      obtain ⟨d, hd, hlook⟩ := (mem_distinctValues store "genres" v).mp hv
      exact ⟨d, hd, v, hlook, (mem_flattenGenre g v).mp hg⟩
    · rintro ⟨d, hd, v, hlook, hhas⟩
      exact ⟨v, (mem_distinctValues store "genres" v).mpr ⟨d, hd, hlook⟩,
        (mem_flattenGenre g v).mpr hhas⟩

theorem C2_witness :
    (([[("title", Value.str "Blue Moon"), ("genres", Value.strList ["jazz", "pop"])],
       [("title", Value.str "Red Sun"), ("genres", Value.str "rock")]] : List Doc).all
        goodGenres = true) ∧
      "rock" ∈ list_genres
        [[("title", Value.str "Blue Moon"), ("genres", Value.strList ["jazz", "pop"])],
         [("title", Value.str "Red Sun"), ("genres", Value.str "rock")]] :=
  ⟨by decide,
    ((C2_genres_flatten_dedup_sorted _ (by decide)).2.2 "rock").mpr
      ⟨[("title", Value.str "Red Sun"), ("genres", Value.str "rock")], by decide,
        Value.str "rock", by decide, rfl⟩⟩

/-- C9 -- On any store whose artist fields hold strings (or null, which the
route's truthiness filter drops), `GET /artists` returns the distinct
non-empty artist values, without duplicates, sorted lexicographically
ascending: `s` appears in the output iff `s` is non-empty and is the
artist value of some stored document. -/
theorem C9_artists_distinct_sorted (store : List Doc)
    (_hscope : store.all goodArtist = true) :
    List.Sorted (fun a b => strLE a b = true) (list_artists store) ∧
      (list_artists store).Nodup ∧
        ∀ s : String, s ∈ list_artists store ↔
          (∃ d ∈ store, d.lookup "artist" = some (Value.str s)) ∧ s ≠ "" := by
  refine ⟨sortStrings_sorted _, ?_, ?_⟩
  · apply ((sortStrings_perm _).nodup_iff).mpr
    apply List.Nodup.filterMap
    · intro a a' b hb hb'
      obtain ⟨ha, _⟩ := artistKeep_eq_some hb
      obtain ⟨ha', _⟩ := artistKeep_eq_some hb'
      rw [ha, ha']
    · exact List.nodup_dedup _
  · intro s
    rw [list_artists, (sortStrings_perm _).mem_iff, List.mem_filterMap]
    constructor
    · rintro ⟨v, hv, hkeep⟩
      obtain ⟨hvs, hne⟩ := artistKeep_eq_some hkeep
      subst hvs
      obtain ⟨d, hd, hlook⟩ := (mem_distinctValues store "artist" _).mp hv
      exact ⟨⟨d, hd, hlook⟩, hne⟩
    · rintro ⟨⟨d, hd, hlook⟩, hne⟩
      refine ⟨Value.str s, (mem_distinctValues store "artist" _).mpr ⟨d, hd, hlook⟩, ?_⟩
      simp [hne]

theorem C9_witness :
    (([[("artist", Value.str "Artist B")], [("artist", Value.str "Artist A")],
       [("artist", Value.str "")], [("artist", Value.str "Artist A")]] : List Doc).all
        goodArtist = true) ∧
      "Artist A" ∈ list_artists
        [[("artist", Value.str "Artist B")], [("artist", Value.str "Artist A")],
         [("artist", Value.str "")], [("artist", Value.str "Artist A")]] :=
  ⟨by decide,
    ((C9_artists_distinct_sorted _ (by decide)).2.2 "Artist A").mpr
      ⟨⟨[("artist", Value.str "Artist A")], by decide, rfl⟩, by decide⟩⟩

/-- C5 -- `GET /tracks` rejects `limit=501` (and every value above 500)
with a validation error before any repository logic runs (the endpoint
errors identically on every store), accepts `limit=500`, defaults to 50
when the parameter is absent, and never truncates: an accepted value is
passed through unchanged. -/
theorem C5_limit_cap_rejected_not_truncated :
    validate_limit (some 501) = Except.error 422 ∧
      (∀ v : Int, 500 < v → validate_limit (some v) = Except.error 422) ∧
        validate_limit (some 500) = Except.ok 500 ∧
          validate_limit none = Except.ok 50 ∧
            (∀ v r : Int, validate_limit (some v) = Except.ok r → r = v) ∧
              ∀ (store : List Doc) (q a g : Option String),
                list_tracks_endpoint store q a g (some 501) = Except.error 422 := by
  refine ⟨rfl, ?_, rfl, rfl, ?_, ?_⟩
  · intro v hv
    simp only [validate_limit]
    rw [if_neg (by omega)]
  · intro v r h
    simp only [validate_limit] at h
    split_ifs at h
    exact (Except.ok.inj h).symm
  · intro store q a g
    simp [list_tracks_endpoint, validate_limit]

theorem C5_witness :
    (500 < (501 : Int) ∧ validate_limit (some 501) = Except.error 422) ∧
      (validate_limit (some 7) = Except.ok 7 ∧ (7 : Int) = 7) ∧
        list_tracks_endpoint [] none none none (some 501) = Except.error 422 :=
  ⟨⟨by decide, C5_limit_cap_rejected_not_truncated.2.1 501 (by decide)⟩,
    ⟨rfl, C5_limit_cap_rejected_not_truncated.2.2.2.2.1 7 7 rfl⟩,
      C5_limit_cap_rejected_not_truncated.2.2.2.2.2 [] none none none⟩

/-- C10 -- The limit parameter has no declared lower bound: every integer
at most 500 — including 0 and negative values — passes validation
unchanged, and running the handler with `limit = 0` applies no cap at
all: the endpoint returns every matching track, shaped. -/
theorem C10_limit_zero_means_no_cap :
    (∀ v : Int, v ≤ 500 → validate_limit (some v) = Except.ok v) ∧
      ∀ (store : List Doc) (q a g : Option String),
        list_tracks store q a g 0 =
          (store.filter (matchesQuery (build_search_query q a g))).map
            (fun d => serialize_track (some d)) := by
  constructor
  · intro v hv
    simp [validate_limit, hv]
  · intro store q a g
    simp [list_tracks, applyLimit]

theorem C10_witness :
    ((0 : Int) ≤ 500 ∧ validate_limit (some 0) = Except.ok 0) ∧
      ((-3 : Int) ≤ 500 ∧ validate_limit (some (-3)) = Except.ok (-3)) :=
  ⟨⟨by decide, C10_limit_zero_means_no_cap.1 0 (by decide)⟩,
    ⟨by decide, C10_limit_zero_means_no_cap.1 (-3) (by decide)⟩⟩

/-- C6 -- `GET /tracks/{id}`: when no stored document's `music_id` equals
the requested identifier, the endpoint returns HTTP 404 with the
human-readable detail "Track not found" and no track data; when a (unique,
per the spec's no-collision invariant) document matches, it returns
exactly that one document, shaped by `serialize_track`. -/
theorem C6_lookup_404_or_exact_track (store : List Doc) (mid : String) :
    ((∀ d ∈ store, d.lookup "music_id" ≠ some (Value.str mid)) →
        get_track_by_music_id store mid = Except.error (404, "Track not found")) ∧
      ∀ d ∈ store, d.lookup "music_id" = some (Value.str mid) →
        (∀ d2 ∈ store, d2.lookup "music_id" = some (Value.str mid) → d2 = d) →
        get_track_by_music_id store mid = Except.ok (serialize_track (some d)) := by
  constructor
  · intro h
    have hfind : find_one store mid = none := by
      rw [find_one, List.find?_eq_none]
      intro d hd hbeq
      exact h d hd (by simpa using hbeq)
    simp [get_track_by_music_id, hfind]
  · intro d hd hlook huniq
    have hfind : find_one store mid = some d := by
      apply find?_of_unique hd
      · simp [hlook]
      · intro b hb hpb
        exact huniq b hb (by simpa using hpb)
    have hne : d.isEmpty = false := by
      cases d with
      | nil => simp [List.lookup] at hlook
      | cons p rest => rfl
    simp [get_track_by_music_id, hfind, hne]

theorem C6_witness :
    (∀ d ∈ ([[("music_id", Value.str "m1"), ("title", Value.str "T")]] : List Doc),
        d.lookup "music_id" ≠ some (Value.str "zzz")) ∧
      get_track_by_music_id [[("music_id", Value.str "m1"), ("title", Value.str "T")]]
          "zzz" = Except.error (404, "Track not found") ∧
        get_track_by_music_id [[("music_id", Value.str "m1"), ("title", Value.str "T")]]
            "m1" =
          Except.ok (serialize_track
            (some [("music_id", Value.str "m1"), ("title", Value.str "T")])) :=
  ⟨by decide,
    (C6_lookup_404_or_exact_track
        [[("music_id", Value.str "m1"), ("title", Value.str "T")]] "zzz").1 (by decide),
    (C6_lookup_404_or_exact_track
        [[("music_id", Value.str "m1"), ("title", Value.str "T")]] "m1").2
      [("music_id", Value.str "m1"), ("title", Value.str "T")] (by decide) rfl
      (by decide)⟩

/-- C3 counterexample -- a document accepted by the shaper whose `genres`,
`audio_features` and `sources` keys are present but hold null is shaped
with those output fields null, not defaulted: `dict.get(k, default)` only
defaults on an absent key. -/
theorem C3_present_null_not_defaulted :
    (serialize_track (some [("title", Value.str "T"), ("genres", Value.null),
        ("audio_features", Value.null), ("sources", Value.null)])).isSome = true ∧
      outField [("title", Value.str "T"), ("genres", Value.null),
          ("audio_features", Value.null), ("sources", Value.null)] "genres" =
        some Value.null ∧
        outField [("title", Value.str "T"), ("genres", Value.null),
            ("audio_features", Value.null), ("sources", Value.null)] "audio_features" =
          some Value.null ∧
          outField [("title", Value.str "T"), ("genres", Value.null),
              ("audio_features", Value.null), ("sources", Value.null)] "sources" =
            some Value.null :=
  ⟨rfl, rfl, rfl, rfl⟩

/-- C3 (amended) -- for every accepted input document, the shaper defaults
`genres` to the empty sequence and `audio_features`/`sources` to the empty
mapping exactly when the key is absent; a present key — including one
holding null — is passed through unchanged. -/
theorem C3_defaults_apply_only_when_absent (d : Doc) (hd : d ≠ []) :
    (d.lookup "genres" = none → outField d "genres" = some (Value.strList [])) ∧
      (d.lookup "audio_features" = none →
          outField d "audio_features" = some (Value.vmap [])) ∧
        (d.lookup "sources" = none → outField d "sources" = some (Value.vmap [])) ∧
          (∀ v, d.lookup "genres" = some v → outField d "genres" = some v) ∧
            (∀ v, d.lookup "audio_features" = some v →
                outField d "audio_features" = some v) ∧
              ∀ v, d.lookup "sources" = some v → outField d "sources" = some v := by
  obtain ⟨p, rest, rfl⟩ : ∃ p rest, d = p :: rest := by
    cases d with
    | nil => exact absurd rfl hd
    | cons p rest => exact ⟨p, rest, rfl⟩
  have hg : outField (p :: rest) "genres" =
      some (docGetD (p :: rest) "genres" (Value.strList [])) := rfl
  have ha : outField (p :: rest) "audio_features" =
      some (docGetD (p :: rest) "audio_features" (Value.vmap [])) := rfl
  have hs : outField (p :: rest) "sources" =
      some (docGetD (p :: rest) "sources" (Value.vmap [])) := rfl
  refine ⟨fun h => ?_, fun h => ?_, fun h => ?_,
    fun v h => ?_, fun v h => ?_, fun v h => ?_⟩ <;>
    simp [hg, ha, hs, docGetD, h]

theorem C3_amended_witness :
    (([("title", Value.str "T"), ("sources", Value.null)] : Doc) ≠ [] ∧
        ([("title", Value.str "T"), ("sources", Value.null)] : Doc).lookup "genres" =
          none ∧
      ([("title", Value.str "T"), ("sources", Value.null)] : Doc).lookup "sources" =
          some Value.null) ∧
      outField [("title", Value.str "T"), ("sources", Value.null)] "genres" =
          some (Value.strList []) ∧
        outField [("title", Value.str "T"), ("sources", Value.null)] "sources" =
          some Value.null :=
  ⟨⟨by decide, rfl, rfl⟩,
    (C3_defaults_apply_only_when_absent _ (by decide)).1 rfl,
    (C3_defaults_apply_only_when_absent _ (by decide)).2.2.2.2.2 Value.null rfl⟩

/-- C4 -- evaluation at the failing input: a legacy document storing its
genres field as the scalar string "rock" is shaped with `genres` still the
bare scalar, not a list — `serialize_track` passes the stored value
through unchanged, so the public representation is not list-shaped
(contradicting the `TrackResponse` declaration `genres: List[str]`). -/
theorem C4_scalar_genres_passed_through_unchanged :
    outField [("title", Value.str "Red Sun"), ("genres", Value.str "rock")] "genres" =
      some (Value.str "rock") := rfl

/-- C7 -- for every accepted document: when `date_added` is absent or not
a timestamp, the shaped `date_added` is null; when it is a (valid Python)
timestamp, the shaped `date_added` is its ISO-8601 rendering, and parsing
that string recovers the original timestamp (round-trip). -/
theorem C7_date_added_iso_roundtrip (d : Doc) (hd : d ≠ []) :
    ((∀ t : DateTime, docGet d "date_added" ≠ Value.time t) →
        outField d "date_added" = some Value.null) ∧
      ∀ t : DateTime, docGet d "date_added" = Value.time t → t.Valid →
        outField d "date_added" = some (Value.str t.isoformat) ∧
          isoParse t.isoformat = some t := by
  obtain ⟨p, rest, rfl⟩ : ∃ p rest, d = p :: rest := by
    cases d with
    | nil => exact absurd rfl hd
    | cons p rest => exact ⟨p, rest, rfl⟩
  have hout : outField (p :: rest) "date_added" =
      some (match docGet (p :: rest) "date_added" with
            | Value.time t => Value.str t.isoformat
            | _ => Value.null) := rfl
  constructor
  · intro h
    rw [hout]
    cases hv : docGet (p :: rest) "date_added" with
    | time t => exact absurd hv (h t)
    | null => rfl
    | str s => rfl
    | strList l => rfl
    | vmap m => rfl
  · intro t ht hvalid
    refine ⟨?_, isoformat_roundtrip t hvalid⟩
    rw [hout, ht]

theorem C7_witness :
    ((([("title", Value.str "A")] : Doc) ≠ [] ∧
        outField [("title", Value.str "A")] "date_added" = some Value.null) ∧
      (([("date_added", Value.str "2020")] : Doc) ≠ [] ∧
        outField [("date_added", Value.str "2020")] "date_added" =
          some Value.null)) ∧
      DateTime.Valid ⟨2023, 5, 17, 9, 8, 7, 123⟩ ∧
        outField [("date_added", Value.time ⟨2023, 5, 17, 9, 8, 7, 123⟩)]
            "date_added" =
          some (Value.str (DateTime.isoformat ⟨2023, 5, 17, 9, 8, 7, 123⟩)) ∧
          isoParse (DateTime.isoformat ⟨2023, 5, 17, 9, 8, 7, 123⟩) =
            some ⟨2023, 5, 17, 9, 8, 7, 123⟩ :=
  ⟨⟨⟨by decide,
      (C7_date_added_iso_roundtrip _ (by decide)).1 (fun t ht => Value.noConfusion ht)⟩,
    ⟨by decide,
      (C7_date_added_iso_roundtrip _ (by decide)).1 (fun t ht => Value.noConfusion ht)⟩⟩,
    by decide,
    ((C7_date_added_iso_roundtrip
          [("date_added", Value.time ⟨2023, 5, 17, 9, 8, 7, 123⟩)] (by decide)).2
        ⟨2023, 5, 17, 9, 8, 7, 123⟩ rfl (by decide)).1,
    ((C7_date_added_iso_roundtrip
          [("date_added", Value.time ⟨2023, 5, 17, 9, 8, 7, 123⟩)] (by decide)).2
        ⟨2023, 5, 17, 9, 8, 7, 123⟩ rfl (by decide)).2⟩

/-- C8 -- for every accepted input document the shaper emits exactly the
ten allow-listed public field names, in particular never the lower-cased
shadow fields `title_lower`/`artist_lower`/`album_lower`/`genres_lower`
nor the raw storage identifier `_id`; the only identifier emitted is the
single `music_id` field. -/
theorem C8_output_keys_are_allowlist (d : Doc) (hd : d ≠ []) :
    (serialize_track (some d)).map (fun out => out.map Prod.fst) =
        some publicFields ∧
      ∀ out, serialize_track (some d) = some out →
        "title_lower" ∉ out.map Prod.fst ∧ "artist_lower" ∉ out.map Prod.fst ∧
          "album_lower" ∉ out.map Prod.fst ∧ "genres_lower" ∉ out.map Prod.fst ∧
            "_id" ∉ out.map Prod.fst := by
  obtain ⟨p, rest, rfl⟩ : ∃ p rest, d = p :: rest := by
    cases d with
    | nil => exact absurd rfl hd
    | cons p rest => exact ⟨p, rest, rfl⟩
  have hkeys : (serialize_track (some (p :: rest))).map (fun out => out.map Prod.fst) =
      some publicFields := rfl
  refine ⟨hkeys, ?_⟩
  intro out hout
  rw [hout] at hkeys
  have hfst : out.map Prod.fst = publicFields := Option.some.inj hkeys
  refine ⟨?_, ?_, ?_, ?_, ?_⟩ <;> rw [hfst] <;> decide

theorem C8_witness :
    (([("_id", Value.str "raw-oid"), ("title_lower", Value.str "x"),
        ("music_id", Value.str "m1"), ("title", Value.str "X")] : Doc) ≠ []) ∧
      (serialize_track
          (some [("_id", Value.str "raw-oid"), ("title_lower", Value.str "x"),
            ("music_id", Value.str "m1"), ("title", Value.str "X")])).map
          (fun out => out.map Prod.fst) =
        some publicFields :=
  ⟨by decide, (C8_output_keys_are_allowlist _ (by decide)).1⟩

/-- Sanity check: the spec's §8 scenario — a store holding "Blue Moon"
(genres list) and "Red Sun" (scalar genres) yields the flattened, sorted,
deduplicated genre list. -/
example :
    list_genres
      [[("title", Value.str "Blue Moon"), ("genres", Value.strList ["jazz", "pop"])],
       [("title", Value.str "Red Sun"), ("genres", Value.str "rock")]] =
      ["jazz", "pop", "rock"] := by decide

/-- Sanity check: a case-insensitive free-text search hits the title
shadow field. -/
example :
    matchesQuery (build_search_query (some "MOON") none none)
      [("title", Value.str "Blue Moon"), ("title_lower", Value.str "blue moon"),
       ("artist_lower", Value.str "artist a"), ("album_lower", Value.str "")] =
      true := by decide

/-- Sanity check: the same search misses a track whose shadows lack the
pattern. -/
example :
    matchesQuery (build_search_query (some "MOON") none none)
      [("title", Value.str "Red Sun"), ("title_lower", Value.str "red sun"),
       ("artist_lower", Value.str "artist b"), ("album_lower", Value.str "")] =
      false := by decide
